import Mathlib

/-!
Verification of the New-MirthBr channel runtime (Rust backend) against its
natural-language specification.  Each component that a claim touches is
shallowly embedded from the Rust source under `src/backend/src/`:

* `Mllp` — the MLLP frame accumulator and ACK generator
  (`engine/listeners/mllp.rs`).  Rust `String`s that carry frame payloads are
  represented by their UTF-8 byte sequences (`List Nat`); `String::from_utf8`
  succeeds exactly on such sequences, so an emitted frame is represented by
  the byte content of its buffer.
* `Storage` — `MessageStatus` and its `From<String>` conversion
  (`storage/messages.rs`), the deduplication store (`storage/deduplication.rs`).
* `FilterProcessor` — `engine/processors/filter.rs`; the embedded Lua
  interpreter is out of scope per the spec, so the evaluation outcome of the
  configured condition is an input of the model.
* `FileWriter` — `engine/destinations/file.rs` (`sanitize_filename`,
  `validate_path`, `build_filename`), with Rust strings as `List Char`.
* `HttpSender` — `engine/destinations/http.rs`; URL parsing by the `url`
  crate and DNS resolution are environment inputs.
* `TcpSource` — the per-frame persistence/ACK/enqueue logic of
  `handle_connection` in `engine/listeners/tcp.rs`.
* `RetryWorker` — the per-row retry decision of
  `RetryWorker::process_retries` in `engine/retry_worker.rs`.
* `Pipeline` — the per-message body of the processing loop spawned by
  `ChannelManager::start_channel` (`engine/channel_manager.rs`), and the
  registry/dedup effect of `start_channel` itself.
-/

/- ===================================================================
   MLLP frame accumulator — engine/listeners/mllp.rs
   =================================================================== -/

namespace Mllp

/-- Byte constant `SB` (start block) from mllp.rs: `const SB: u8 = 0x0B`. -/
def SB : Nat := 0x0B

/-- Byte constant `EB` (end block) from mllp.rs: `const EB: u8 = 0x1C`. -/
def EB : Nat := 0x1C

/-- Byte constant `CR` from mllp.rs: `const CR: u8 = 0x0D`. -/
def CR : Nat := 0x0D

/-- The accumulator state enum `MllpState` from mllp.rs. -/
inductive MllpState where
  | waitingStart
  | accumulating
  | complete
  | error (reason : String)
  deriving DecidableEq, Repr

/-- The mutable fields of `MllpFrameAccumulator` that the byte-level state
machine reads and writes (`state` and `buffer`); `last_activity` and
`timeout_ms` only feed `check_timeout`, which no claim exercises. -/
structure Acc where
  state : MllpState
  buffer : List Nat
  deriving DecidableEq, Repr

/-- `MllpFrameAccumulator::new`: state `WaitingStart`, empty buffer. -/
def newAcc : Acc := ⟨MllpState.waitingStart, []⟩

/-- One iteration of the `for &byte in data` loop of
`MllpFrameAccumulator::feed`: the next state/buffer plus the frames emitted
on this byte (zero or one). -/
def feedByte (a : Acc) (byte : Nat) : Acc × List (List Nat) :=
  match a.state with
  | MllpState.waitingStart =>
      if byte = SB then (⟨MllpState.accumulating, []⟩, []) else (a, [])
  | MllpState.accumulating =>
      if byte = SB then (⟨MllpState.accumulating, []⟩, [])
      else if byte = EB then (⟨MllpState.complete, a.buffer⟩, [])
      else (⟨MllpState.accumulating, a.buffer ++ [byte]⟩, [])
  | MllpState.complete =>
      if byte = CR then (⟨MllpState.waitingStart, []⟩, [a.buffer])
      else if byte = SB then (⟨MllpState.accumulating, []⟩, [])
      else (⟨MllpState.waitingStart, []⟩, [])
  | MllpState.error _ =>
      if byte = SB then (⟨MllpState.accumulating, []⟩, []) else (a, [])

/-- `MllpFrameAccumulator::feed`: run the loop over the whole input slice,
returning the final accumulator and all messages pushed, in order. -/
def feed : Acc → List Nat → Acc × List (List Nat)
  | a, [] => (a, [])
  | a, b :: rest =>
      let r := feedByte a b
      let s := feed r.1 rest
      (s.1, r.2 ++ s.2)

/-- Successive calls to `feed` on a sequence of network chunks, concatenating
the emitted messages (the caller in tcp.rs handles each returned batch in
order). -/
def feedAll : Acc → List (List Nat) → Acc × List (List Nat)
  | a, [] => (a, [])
  | a, chunk :: rest =>
      let r := feed a chunk
      let s := feedAll r.1 rest
      (s.1, r.2 ++ s.2)

/-- The MLLP encoding of a frame content: `SB + content + EB + CR`
(the wire format produced by `generate_ack` and by `TcpSender`). -/
def encode (content : List Nat) : List Nat := SB :: content ++ [EB, CR]

theorem feed_append (a : Acc) (xs ys : List Nat) :
    feed a (xs ++ ys) =
      ((feed (feed a xs).1 ys).1, (feed a xs).2 ++ (feed (feed a xs).1 ys).2) := by
  induction xs generalizing a with
  | nil => simp [feed]
  | cons b rest ih =>
      simp only [List.cons_append, List.append_eq, feed]
      rw [ih (feedByte a b).1]
      simp [List.append_assoc]

theorem feedAll_join (a : Acc) (chunks : List (List Nat)) :
    feedAll a chunks = feed a chunks.flatten := by
  induction chunks generalizing a with
  | nil => simp [feedAll, feed]
  | cons c rest ih =>
      simp only [feedAll, List.flatten_cons, feed_append]
      rw [ih (feed a c).1]

theorem feed_content (content : List Nat)
    (h : ∀ b ∈ content, b ≠ SB ∧ b ≠ EB) (buf : List Nat) :
    feed ⟨MllpState.accumulating, buf⟩ content =
      (⟨MllpState.accumulating, buf ++ content⟩, []) := by
  induction content generalizing buf with
  | nil => simp [feed]
  | cons b rest ih =>
      have hb := h b (List.mem_cons_self b rest)
      have hrest : ∀ x ∈ rest, x ≠ SB ∧ x ≠ EB := fun x hx => h x (List.mem_cons_of_mem b hx)
      simp only [feed, feedByte, if_neg hb.1, if_neg hb.2]
      rw [ih hrest (buf ++ [b])]
      simp

theorem feed_frame (m : List Nat) (h : ∀ b ∈ m, b ≠ SB ∧ b ≠ EB) :
    feed newAcc (encode m) = (newAcc, [m]) := by
  have h1 : feed newAcc (encode m) =
      feed ⟨MllpState.accumulating, []⟩ (m ++ [EB, CR]) := by
    simp [encode, feed, feedByte, newAcc]
  rw [h1, feed_append, feed_content m h []]
  simp [feed, feedByte, EB, SB, CR, newAcc]

end Mllp

/- ===================================================================
   Message status — storage/messages.rs
   =================================================================== -/

namespace Storage

/-- The `MessageStatus` enum.  `storage/messages.rs` declares the four
variants `PENDING | PROCESSING | SENT | ERROR`; the processing loop in
`channel_manager.rs` additionally references `MessageStatus::FILTERED` when a
message is deduplicated or filtered, so the embedding carries that variant
too.  `statusFromString` below, translated from the `From<String>` impl,
never produces it. -/
inductive MessageStatus where
  | PENDING
  | PROCESSING
  | SENT
  | ERROR
  | FILTERED
  deriving DecidableEq, Repr

/-- `impl From<String> for MessageStatus` in storage/messages.rs: match on
the literal names, with `_ => MessageStatus::ERROR` as the default arm. -/
def statusFromString (s : String) : MessageStatus :=
  if s = "PENDING" then MessageStatus.PENDING
  else if s = "PROCESSING" then MessageStatus.PROCESSING
  else if s = "SENT" then MessageStatus.SENT
  else if s = "ERROR" then MessageStatus.ERROR
  else MessageStatus.ERROR

/-- The row filter of the retry worker's scan query in
`RetryWorker::process_retries` (retry_worker.rs):
`SELECT ... FROM messages WHERE status = 'ERROR'` — a literal string
comparison against the stored status column. -/
def retryScanSelects (status : String) : Bool := status = "ERROR"

end Storage

/- ===================================================================
   Retry worker — engine/retry_worker.rs
   =================================================================== -/

namespace RetryWorker

/-- One `messages` row as read by the retry scan.  Message and channel ids
are opaque 128-bit values; the engine only ever writes canonical UUID
strings into these columns, so `Uuid::parse_str` on them succeeds and is
modelled as the identity on an opaque `Nat` id.  `updatedAt` and `now` are
UTC timestamps in seconds (`chrono::Duration::minutes(m)` = `60*m` s);
`Int` avoids the irrelevant overflow fallback of `checked_add_signed`. -/
structure MessageRow where
  id : Nat
  channelId : Nat
  content : String
  retryCount : Nat
  updatedAt : Int
  deriving DecidableEq, Repr

/-- What the retry worker does to one due row: the `UPDATE` it runs and the
message it enqueues. -/
structure RetryAction where
  messageId : Nat
  channelId : Nat
  content : String
  origin : String
  newRetryCount : Nat
  newStatus : Storage.MessageStatus
  deriving DecidableEq, Repr

/-- The per-row body of `RetryWorker::process_retries`:
`backoff_minutes = 2^retry_count`; `next_retry_time = updated_at + backoff`
minutes; when `now >= next_retry_time` and the channel has a registered
sender, update the row to `PROCESSING` with `retry_count + 1` and enqueue a
message with the row's id and origin `"retry_worker"`.  Returns `none` when
the row is skipped. -/
def retryDecision (senders : List Nat) (now : Int) (r : MessageRow) : Option RetryAction :=
  let backoffMinutes : Nat := 2 ^ r.retryCount
  let nextRetryTime : Int := r.updatedAt + 60 * (backoffMinutes : Int)
  if nextRetryTime ≤ now then
    if r.channelId ∈ senders then
      some { messageId := r.id
           , channelId := r.channelId
           , content := r.content
           , origin := "retry_worker"
           , newRetryCount := r.retryCount + 1
           , newStatus := Storage.MessageStatus.PROCESSING }
    else none
  else none

/-- `RetryWorker::process_retries` over the scanned `ERROR` rows. -/
def processRetries (senders : List Nat) (now : Int) (rows : List MessageRow) :
    List RetryAction :=
  rows.filterMap (retryDecision senders now)

end RetryWorker

/- ===================================================================
   Deduplication store and ChannelManager::start_channel registry effect —
   storage/deduplication.rs, engine/channel_manager.rs
   =================================================================== -/

namespace Manager

/-- A `processed_ids` row: `(channel_id, message_hash, expires_at)`.  Channel
ids and content hashes are opaque `Nat`s (the hash is `DefaultHasher` output
formatted in hex; only equality of hashes matters here). -/
abbrev DedupEntry := Nat × Nat × Int

/-- `DeduplicationStore::is_duplicate`: a non-expired row for
`(channel_id, hash)` exists (`expires_at > now`). -/
def isDuplicate (entries : List DedupEntry) (channelId hash : Nat) (now : Int) : Bool :=
  entries.any (fun e => e.1 = channelId ∧ e.2.1 = hash ∧ now < e.2.2)

/-- `DeduplicationStore::clear_channel`:
`DELETE FROM processed_ids WHERE channel_id = ?`.  (Defined in
storage/deduplication.rs; no call site exists anywhere under src/.) -/
def clearChannel (entries : List DedupEntry) (channelId : Nat) : List DedupEntry :=
  entries.filter (fun e => ¬ e.1 = channelId)

/-- The manager state that `start_channel` touches: the task-handle registry
(`channels`), the sender map (`senders`), and the `processed_ids` table. -/
structure ManagerState where
  channels : List Nat
  senders : List Nat
  dedup : List DedupEntry
  deriving DecidableEq, Repr

/-- The state effect of `ChannelManager::start_channel` for channel `cid`
(channel_manager.rs, lines 114-150 of the relevant section): persist the
config (not modelled — the channel store is external), abort and remove any
existing handle for `cid`, remove the old sender, create the capacity-100
queue, insert the new sender, spawn the supervisor and insert its handle.
No statement in `start_channel` (or anywhere else) calls
`DeduplicationStore::clear_channel`, so `dedup` is untouched. -/
def startChannel (st : ManagerState) (cid : Nat) : ManagerState :=
  { channels := cid :: st.channels.filter (fun c => ¬ c = cid)
  , senders := cid :: st.senders.filter (fun c => ¬ c = cid)
  , dedup := st.dedup }

end Manager

/- ===================================================================
   Filter processor — engine/processors/filter.rs
   =================================================================== -/

namespace FilterProcessor

/-- The shape of an `mlua::Value` as far as `FilterProcessor::process`
inspects it: it matches `Boolean` and `Nil` and lumps every other variant
(`Integer`, `Number`, `String`, `Table`, `Function`, ...) into the wildcard
arm.  Representative non-boolean variants are kept so the wildcard arm is
visible in the model. -/
inductive LuaValue where
  | boolean (b : Bool)
  | nil
  | number (n : Int)
  | str (s : String)
  | table
  | func
  deriving DecidableEq, Repr

/-- `FilterProcessor::process` (filter.rs, lines 14-48).  Building the `msg`
table and evaluating the configured condition chunk happen inside the
sandboxed Lua interpreter, which the spec treats as opaque; `evalResult` is
the outcome of `chunk.eval()`.  The match on the result is translated
verbatim: `Boolean(b) => Ok(b)`, `Nil => Ok(false)`, `_ => Ok(true)` (with a
warning logged), and a raised error propagates as `Err`. -/
def process (evalResult : Except String LuaValue) : Except String Bool :=
  match evalResult with
  | Except.error e => Except.error e
  | Except.ok v =>
      match v with
      | LuaValue.boolean b => Except.ok b
      | LuaValue.nil => Except.ok false
      | _ => Except.ok true

end FilterProcessor

/- ===================================================================
   Per-message pipeline loop — engine/channel_manager.rs (the processor
   future built inside ChannelManager::start_channel)
   =================================================================== -/

namespace Pipeline

/-- One configured processor step together with the environment-supplied
outcome of its opaque part:

* `lua name r` — a `ProcessorType::Lua` step; `r` is the result of
  `LuaProcessor::process` (the sandboxed script run), giving the new content
  or an error string.
* `mapper r` — a `ProcessorType::Mapper` step with the result of
  `MapperProcessor::process`.
* `filter v` — a `ProcessorType::Filter` step; `v` is the Lua evaluation
  outcome fed to `FilterProcessor.process`.
* `hl7 json` — a `ProcessorType::Hl7` step; `serde_json::to_string` on the
  flattened `HashMap<String, Vec<String>>` is infallible, and its exact
  output depends on hash-map iteration order, so the serialized string is an
  input.  The `Err` arm of the source is unreachable for this type.
* `other` — any remaining `ProcessorType` variant: the wildcard arm logs a
  warning and leaves the message unchanged. -/
inductive ProcStep where
  | lua (name : String) (r : Except String String)
  | mapper (r : Except String String)
  | filter (v : Except String FilterProcessor.LuaValue)
  | hl7 (json : String)
  | other

/-- Observable outcome of the processor chain (`for proc_config in
&processors` in the processing loop): the final content, the
`failed`/`error_msg` locals, plus the status updates and reply-handle
resolutions performed inside the loop arms themselves. -/
structure ChainOut where
  content : String
  failed : Bool
  errorMsg : String
  statusUpdates : List (Storage.MessageStatus × Option String)
  replies : List (Except String String)
  deriving Repr

/-- The processor chain loop.  On success each arm replaces the message and
continues; the Lua arm resolves the reply handle with the error before
setting `failed`; `Ok(false)` from the filter records status `FILTERED`,
resolves the reply with `Ok("Message Filtered")` and sets the sentinel
`error_msg = "FILTERED"`; every failing arm breaks the loop. -/
def runChain : String → List ProcStep → ChainOut
  | content, [] => ⟨content, false, "", [], []⟩
  | content, step :: rest =>
      match step with
      | ProcStep.lua name r =>
          match r with
          | Except.ok c => runChain c rest
          | Except.error e =>
              let m := "Processor " ++ name ++ " failed: " ++ e
              ⟨content, true, m, [], [Except.error m]⟩
      | ProcStep.mapper r =>
          match r with
          | Except.ok c => runChain c rest
          | Except.error e =>
              ⟨content, true, "Mapper Processor failed: " ++ e, [], []⟩
      | ProcStep.filter v =>
          match FilterProcessor.process v with
          | Except.ok true => runChain content rest
          | Except.ok false =>
              ⟨content, true, "FILTERED",
               [(Storage.MessageStatus.FILTERED, none)],
               [Except.ok "Message Filtered"]⟩
          | Except.error e =>
              ⟨content, true, "Filter Processor Error: " ++ e, [], []⟩
      | ProcStep.hl7 json => runChain json rest
      | ProcStep.other => runChain content rest

/-- Everything the per-message loop body does that the outside world can
see: `messages`-table status updates (in order, with the optional error
text), metric broadcasts, reply-handle resolutions, the destinations on
which `send` was invoked (by name, in order) and likewise for the error
destination. -/
structure PipelineEffects where
  statusUpdates : List (Storage.MessageStatus × Option String)
  metrics : List String
  replies : List (Except String String)
  destAttempts : List String
  dlqAttempts : List String
  deriving Repr

/-- The body of `while let Some(mut msg) = rx.recv().await` in the processor
future of `ChannelManager::start_channel`:

1. dedup check (`dedupRes`: `none` when no store; `some (ok true)` duplicate,
   `some (ok false)` fresh — then `mark_processed`; `some (error e)` store
   failure, logged and ignored);
2. status `PROCESSING` + `PROCESSING` metric;
3. the processor chain;
4. on non-filter failure: status `ERROR`, `ERROR` metric, dispatch to the
   error destination when configured;
5. otherwise every configured destination is attempted in order —
   a `send` error is only logged — then status `SENT`, `SENT` metric, and
   the reply handle resolves `Ok("Processed")`.

Destination sends are side effects whose outcomes (`dests`, name paired with
the `send` result) come from the environment; an `Err` outcome changes
nothing but the log. -/
def processMessage (content : String) (dedupRes : Option (Except String Bool))
    (steps : List ProcStep) (dests : List (String × Except String Unit))
    (errDest : Option (String × Except String Unit)) : PipelineEffects :=
  match dedupRes with
  | some (Except.ok true) =>
      { statusUpdates := [(Storage.MessageStatus.FILTERED, some "Duplicate message")]
      , metrics := []
      , replies := [Except.ok "Duplicate message skipped"]
      , destAttempts := []
      , dlqAttempts := [] }
  | _ =>
      let chain := runChain content steps
      if chain.failed then
        if chain.errorMsg = "FILTERED" then
          { statusUpdates := (Storage.MessageStatus.PROCESSING, none) :: chain.statusUpdates
          , metrics := ["PROCESSING"]
          , replies := chain.replies
          , destAttempts := []
          , dlqAttempts := [] }
        else
          { statusUpdates := (Storage.MessageStatus.PROCESSING, none) :: chain.statusUpdates
              ++ [(Storage.MessageStatus.ERROR, some chain.errorMsg)]
          , metrics := ["PROCESSING", "ERROR"]
          , replies := chain.replies
          , destAttempts := []
          , dlqAttempts := (errDest.map Prod.fst).toList }
      else
        { statusUpdates := (Storage.MessageStatus.PROCESSING, none) :: chain.statusUpdates
            ++ [(Storage.MessageStatus.SENT, none)]
        , metrics := ["PROCESSING", "SENT"]
        , replies := chain.replies ++ [Except.ok "Processed"]
        , destAttempts := dests.map Prod.fst
        , dlqAttempts := [] }

theorem runChain_ok_no_effects (content : String) (steps : List ProcStep)
    (h : (runChain content steps).failed = false) :
    (runChain content steps).statusUpdates = [] ∧ (runChain content steps).replies = [] := by
  induction steps generalizing content with
  | nil => simp [runChain]
  | cons step rest ih =>
      cases step with
      | lua name r =>
          cases r with
          | ok c => exact ih c (by simpa [runChain] using h)
          | error e => simp [runChain] at h
      | mapper r =>
          cases r with
          | ok c => exact ih c (by simpa [runChain] using h)
          | error e => simp [runChain] at h
      | filter v =>
          cases hv : FilterProcessor.process v with
          | ok b =>
              cases b with
              | true =>
                  have h2 : (runChain content rest).failed = false := by
                    simpa [runChain, hv] using h
                  simpa [runChain, hv] using ih content h2
              | false => simp [runChain, hv] at h
          | error e => simp [runChain, hv] at h
      | hl7 json => exact ih json (by simpa [runChain] using h)
      | other => exact ih content (by simpa [runChain] using h)

end Pipeline

/- ===================================================================
   Character-level string helpers (Rust `str` operations used by the
   embedded functions; Rust strings are represented as `List Char`)
   =================================================================== -/

namespace Chars

/-- Rust `str::split(sep)`: always yields at least one piece; empty pieces
are kept (`"".split(c)` is `[""]`, `"a\rb"` splits into `["a", "b"]`). -/
def splitOnChar (sep : Char) : List Char → List (List Char)
  | [] => [[]]
  | c :: rest =>
      if c = sep then [] :: splitOnChar sep rest
      else
        match splitOnChar sep rest with
        | [] => [[c]]
        | h :: t => (c :: h) :: t

/-- Rust `str::contains(pattern)` for a literal pattern. -/
def containsSub : List Char → List Char → Bool
  | [], pat => pat.isEmpty
  | c :: rest, pat => pat.isPrefixOf (c :: rest) || containsSub rest pat

/-- Rust `str::replace(pat, rep)` for a non-empty literal pattern:
left-to-right, non-overlapping.  (All patterns passed by the source are
non-empty literals; for an empty pattern this model copies the input.) -/
def replaceAll (pat rep : List Char) : List Char → List Char
  | [] => []
  | c :: rest =>
      if pat ≠ [] ∧ pat.isPrefixOf (c :: rest) then
        rep ++ replaceAll pat rep (rest.drop (pat.length - 1))
      else
        c :: replaceAll pat rep rest
  termination_by s => s.length
  decreasing_by
    all_goals simp [List.length_drop]
    omega

/-- Rust `char::is_control`: the Unicode `Cc` category,
`U+0000..U+001F` and `U+007F..U+009F`. -/
def isControlChar (c : Char) : Bool :=
  c.toNat ≤ 0x1F || (0x7F ≤ c.toNat && c.toNat ≤ 0x9F)

theorem splitOnChar_ne_nil (sep : Char) (s : List Char) : splitOnChar sep s ≠ [] := by
  cases s with
  | nil => simp [splitOnChar]
  | cons c rest =>
      simp only [splitOnChar]
      by_cases h : c = sep
      · simp [h]
      · simp only [if_neg h]
        cases splitOnChar sep rest <;> simp

end Chars

/- ===================================================================
   TCP source, per-frame handling — engine/listeners/tcp.rs
   (handle_connection, the body of `for content in messages`)
   =================================================================== -/

namespace TcpSource

/-- What handling one complete MLLP frame does, observably: log lines
(level, message), whether an ACK write was attempted, whether the frame was
enqueued to the pipeline, and the message id used. -/
structure FrameEffects where
  logs : List (String × String)
  ackAttempted : Bool
  enqueued : Bool
  messageId : Option String
  deriving Repr

/-- The per-frame body of `handle_connection` (tcp.rs, lines 130-174).
`persistence_id` starts as a fresh UUID (`freshId`) and `persisted = false`.
When a `MessageStore` is present (`saveResult = some r`), a successful
`save_message` sets `persisted` and adopts the returned id; a failure logs
`tracing::error!("CRITICAL: Failed to persist message: ...")` and leaves
`persisted = false`.  With no store, `persisted = true`.  Only `if persisted`
does the source write the ACK and, when that socket write succeeds
(`ackWriteOk`), enqueue the message. -/
def handleFrame (freshId : String) (saveResult : Option (Except String String))
    (ackWriteOk : Bool) : FrameEffects :=
  let persisted :=
    match saveResult with
    | none => true
    | some (Except.ok _) => true
    | some (Except.error _) => false
  let persistenceId :=
    match saveResult with
    | some (Except.ok id) => id
    | _ => freshId
  let logs :=
    match saveResult with
    | some (Except.ok id) => [("INFO", "Message persisted to disk with ID: " ++ id)]
    | some (Except.error e) => [("ERROR", "CRITICAL: Failed to persist message: " ++ e)]
    | none => []
  { logs := logs
  , ackAttempted := persisted
  , enqueued := persisted && ackWriteOk
  , messageId := if persisted then some persistenceId else none }

end TcpSource

/- ===================================================================
   File destination — engine/destinations/file.rs
   =================================================================== -/

namespace FileWriter

/-- `MAX_FILENAME_LENGTH` from file.rs. -/
def MAX_FILENAME_LENGTH : Nat := 255

/-- `MAX_PATH_LENGTH` from file.rs. -/
def MAX_PATH_LENGTH : Nat := 4096

/-- `FileWriter::sanitize_filename`: drop `/`, `\`, NUL, then drop control
characters, then truncate to `MAX_FILENAME_LENGTH` characters. -/
def sanitize_filename (filename : List Char) : List Char :=
  (((filename.filter (fun c => !(c = '/' || c = '\\' || c = '\x00'))).filter
      (fun c => !Chars.isControlChar c)).take MAX_FILENAME_LENGTH)

/-- `PathBuf::join` for the cases arising in `validate_path`: the right-hand
side is never absolute there (`sanitize_filename` output has no `/`;
`base_dir` is joined onto the cwd only when it does not start with `/`). -/
def pathJoin (a b : List Char) : List Char := a ++ '/' :: b

/-- `FileWriter::validate_path` (file.rs, lines 51-89).  `cwd` is
`std::env::current_dir()` (an environment input).  Steps, in source order:
reject when `base_dir.len() + filename.len() > MAX_PATH_LENGTH`; resolve a
relative base against the cwd (the source condition
`starts_with("./") || starts_with("../") || !starts_with("/")` is kept
verbatim); sanitize the filename; join; drop `..`, `.` and empty components
(`Path::components` never yields empty ones); reject when the re-collected
path still contains a `..` substring; otherwise return it. -/
def validate_path (cwd base_dir filename : List Char) : Except String (List Char) :=
  if MAX_PATH_LENGTH < base_dir.length + filename.length then
    Except.error "Path exceeds maximum length"
  else
    let isRelative :=
      "./".toList.isPrefixOf base_dir || "../".toList.isPrefixOf base_dir
        || !("/".toList.isPrefixOf base_dir)
    let base := if isRelative then pathJoin cwd base_dir else base_dir
    let sanitized := sanitize_filename filename
    let fullPath := pathJoin base sanitized
    let comps := (Chars.splitOnChar '/' fullPath).filter
      (fun comp => !(comp == "..".toList || comp == ".".toList || comp == []))
    let normalized :=
      (if "/".toList.isPrefixOf fullPath then "/".toList else [])
        ++ List.intercalate "/".toList comps
    if Chars.containsSub normalized "..".toList then
      Except.error "Path contains invalid sequences"
    else
      Except.ok normalized

/-- `FileWriter::build_filename` (file.rs, lines 92-117): token substitution
on the configured pattern (`${timestamp}`, `${id}`, `${date}`, `${channel}`),
each applied only when the token occurs; without a pattern the default is
`message_<id>.txt`.  `ts` and `date` are the formatted current UTC time,
`msgId` the message id, `channel` the channel name. -/
def build_filename (pattern : Option (List Char)) (ts date msgId channel : List Char) :
    List Char :=
  match pattern with
  | some p =>
      let f1 := if Chars.containsSub p "${timestamp}".toList then
          Chars.replaceAll "${timestamp}".toList ts p else p
      let f2 := if Chars.containsSub f1 "${id}".toList then
          Chars.replaceAll "${id}".toList msgId f1 else f1
      let f3 := if Chars.containsSub f2 "${date}".toList then
          Chars.replaceAll "${date}".toList date f2 else f2
      let f4 := if Chars.containsSub f3 "${channel}".toList then
          Chars.replaceAll "${channel}".toList channel f3 else f3
      f4
  | none => "message_".toList ++ msgId ++ ".txt".toList

end FileWriter

/- ===================================================================
   HTTP destination — engine/destinations/http.rs
   =================================================================== -/

namespace HttpSender

/-- An IP address as inspected by `HttpSender::is_private_ip`: a v4 address
by octets, or a v6 address by its eight 16-bit groups. -/
inductive IpAddr where
  | v4 (a b c d : Nat)
  | v6 (groups : List Nat)
  deriving DecidableEq, Repr

/-- `HttpSender::is_private_ip`: for v4 — `is_private` (10/8, 172.16/12,
192.168/16), `is_loopback` (127/8), `is_link_local` (169.254/16),
`is_broadcast` (255.255.255.255), `is_unspecified` (0.0.0.0) or
carrier-grade NAT (100.64/10); for v6 — `is_loopback` (::1) or
`is_unspecified` (::). -/
def isPrivateIp : IpAddr → Bool
  | IpAddr.v4 a b c d =>
      (a = 10 || (a = 172 && 16 ≤ b && b ≤ 31) || (a = 192 && b = 168))
      || a = 127
      || (a = 169 && b = 254)
      || (a = 255 && b = 255 && c = 255 && d = 255)
      || (a = 0 && b = 0 && c = 0 && d = 0)
      || (a = 100 && 64 ≤ b && b ≤ 127)
  | IpAddr.v6 groups =>
      groups = [0, 0, 0, 0, 0, 0, 0, 1] || groups = [0, 0, 0, 0, 0, 0, 0, 0]

/-- `BLOCKED_HOSTS` from http.rs. -/
def BLOCKED_HOSTS : List String :=
  ["localhost", "127.0.0.1", "0.0.0.0", "::1", "169.254.169.254",
   "metadata.google.internal", "metadata.azure.com", "100.100.100.200"]

/-- Rust `str::to_lowercase` restricted to the simple one-to-one case
(sufficient for host names). -/
def lowerStr (s : String) : String := String.mk (s.data.map Char.toLower)

/-- Rust `str::ends_with` for strings. -/
def strEndsWith (s suffix : String) : Bool := suffix.data.isSuffixOf s.data

/-- The fields of a parsed `url::Url` that `validate_url` reads.  Parsing
itself is done by the external `url` crate, so the parse outcome is an
input (`none` = parse error). -/
structure Url where
  scheme : String
  host : Option String
  deriving DecidableEq, Repr

/-- `HttpSender::validate_url` (http.rs, lines 49-97) over the parse
outcome and the DNS resolution outcome (`resolved = none` models
`to_socket_addrs` failing, in which case the source skips the private-IP
check).  In source order: parse; scheme must be http/https; a host must be
present; the lowercased host must not equal a blocked host nor end in
`"." + blocked`; no resolved address may be private/internal.  The
embedded-credentials branch only logs a warning. -/
def validate_url (parsed : Option Url) (resolved : Option (List IpAddr)) :
    Except String Url :=
  match parsed with
  | none => Except.error "Invalid URL format"
  | some u =>
      if !(u.scheme = "http" || u.scheme = "https") then
        Except.error "Invalid URL scheme. Only HTTP/HTTPS are allowed"
      else
        match u.host with
        | none => Except.error "URL must have a valid host"
        | some h =>
            if BLOCKED_HOSTS.any (fun b =>
                lowerStr h = b || strEndsWith (lowerStr h) ("." ++ b)) then
              Except.error "Access to internal host is blocked for security reasons"
            else
              match resolved with
              | some addrs =>
                  if addrs.any isPrivateIp then
                    Except.error "URL resolves to private or internal IP address"
                  else Except.ok u
              | none => Except.ok u

/-- `HttpSender::send` (http.rs, lines 127-161): re-validate the URL, build
the request (method dispatch does not affect the result), send the body.
`transport = none` models a transport-level failure of `.send().await`
(propagated by `?`); `transport = some status` models a completed exchange
with that HTTP status code.  A non-success status is only logged as a
warning — the function returns `Ok(())` for every completed exchange. -/
def send (parsed : Option Url) (resolved : Option (List IpAddr))
    (transport : Option Nat) : Except String Unit :=
  match validate_url parsed resolved with
  | Except.error e => Except.error e
  | Except.ok _ =>
      match transport with
      | none => Except.error "transport error"
      | some _ => Except.ok ()

end HttpSender

/- ===================================================================
   ACK generation — engine/listeners/mllp.rs, generate_ack
   =================================================================== -/

namespace Mllp

/-- `generate_ack` (mllp.rs, lines 100-140), over `List Char` (Rust
`String`).  `now` is `chrono::Utc::now().format("%Y%m%d%H%M%S")` and
`fresh` is `uuid::Uuid::new_v4().to_string()` — both environment inputs.
Split the message on `\r`; split the first segment on `|`; fewer than 10
fields yields the minimal frame `\x0B MSA|AA|Unknown|<now> \x1C\x0D`;
otherwise build the full ACK, swapping sending and receiving app/facility,
and `MSA|AA|<MSH-10>`. -/
def generateAck (now fresh hl7Msg : List Char) : List Char :=
  let segments := Chars.splitOnChar '\r' hl7Msg
  match segments with
  | [] => []
  | s0 :: _ =>
      let mshFields := Chars.splitOnChar '|' s0
      if mshFields.length < 10 then
        '\x0B' :: ("MSA|AA|Unknown|".toList ++ now ++ ['\x1C', '\x0D'])
      else
        let sendingApp := (mshFields.get? 2).getD []
        let sendingFac := (mshFields.get? 3).getD []
        let receivingApp := (mshFields.get? 4).getD []
        let receivingFac := (mshFields.get? 5).getD []
        let msgControlId := (mshFields.get? 9).getD []
        let ackMsh := "MSH|^~\\&|".toList ++ receivingApp ++ '|' :: receivingFac
          ++ '|' :: sendingApp ++ '|' :: sendingFac ++ '|' :: now
          ++ "||ACK|".toList ++ fresh ++ "|P|2.3".toList
        let ackMsa := "MSA|AA|".toList ++ msgControlId
        '\x0B' :: (ackMsh ++ '\r' :: ackMsa ++ ['\x1C', '\x0D'])

/-- The minimal-frame output as the spec words it:
`\x0B MSA|AA|Unknown|<timestamp> \x1C\x0D`. -/
def ackSpecMinimal (now : List Char) : List Char :=
  '\x0B' :: ("MSA|AA|Unknown|".toList ++ now ++ ['\x1C', '\x0D'])

/-- The full ACK as the claim words it, built from the input's first
segment's fields (1-based HL7 numbering: `MSH-3` is index 2): an MSH segment
whose sending app/facility are the input's MSH-5/MSH-6, whose receiving
app/facility are the input's MSH-3/MSH-4, carrying the timestamp, message
type `ACK` and the fresh control id, followed by `MSA|AA|<input MSH-10>`,
wrapped SB…EB CR. -/
def ackSpecFull (now fresh : List Char) (mshFields : List (List Char)) : List Char :=
  let inMsh3 := (mshFields.get? 2).getD []
  let inMsh4 := (mshFields.get? 3).getD []
  let inMsh5 := (mshFields.get? 4).getD []
  let inMsh6 := (mshFields.get? 5).getD []
  let inMsh10 := (mshFields.get? 9).getD []
  '\x0B' ::
    ("MSH|^~\\&|".toList ++ inMsh5 ++ '|' :: inMsh6 ++ '|' :: inMsh3 ++ '|' :: inMsh4
      ++ '|' :: now ++ "||ACK|".toList ++ fresh ++ "|P|2.3".toList
      ++ '\r' :: "MSA|AA|".toList ++ inMsh10 ++ ['\x1C', '\x0D'])

end Mllp

/- ===================================================================
   Claim theorems
   =================================================================== -/

/-- C1: MLLP framing round-trips.  For every frame content free of the SB
(0x0B) and EB (0x1C) bytes, feeding `SB + content + EB + CR` into a fresh
`MllpFrameAccumulator` emits exactly that content; and for two such contents
`m1, m2`, feeding the concatenation of their encodings — however the byte
stream is split into successive `feed()` calls — emits exactly `[m1, m2]`
in order. -/
theorem mllp_framing_roundtrip (m m1 m2 : List Nat)
    (hm : ∀ b ∈ m, b ≠ Mllp.SB ∧ b ≠ Mllp.EB)
    (h1 : ∀ b ∈ m1, b ≠ Mllp.SB ∧ b ≠ Mllp.EB)
    (h2 : ∀ b ∈ m2, b ≠ Mllp.SB ∧ b ≠ Mllp.EB) :
    (Mllp.feed Mllp.newAcc (Mllp.encode m)).2 = [m] ∧
    ∀ chunks : List (List Nat),
      chunks.flatten = Mllp.encode m1 ++ Mllp.encode m2 →
      (Mllp.feedAll Mllp.newAcc chunks).2 = [m1, m2] := by
  refine ⟨by rw [Mllp.feed_frame m hm], ?_⟩
  intro chunks hc
  rw [Mllp.feedAll_join, hc, Mllp.feed_append, Mllp.feed_frame m1 h1]
  simp [Mllp.feed_frame m2 h2]

/-- Witness for C1 at concrete inputs: content `[0x4D]`, and the two-frame
stream for contents `[0x48, 0x69]` and `[0x59, 0x6F]` split into three
chunks at frame-straddling positions. -/
theorem mllp_framing_roundtrip_witness :
    (Mllp.feed Mllp.newAcc (Mllp.encode [0x4D])).2 = [[0x4D]] ∧
    (Mllp.feedAll Mllp.newAcc
        [[0x0B, 0x48], [0x69, 0x1C, 0x0D, 0x0B, 0x59], [0x6F, 0x1C, 0x0D]]).2 =
      [[0x48, 0x69], [0x59, 0x6F]] := by
  have h := mllp_framing_roundtrip [0x4D] [0x48, 0x69] [0x59, 0x6F]
    (by decide) (by decide) (by decide)
  exact ⟨h.1, h.2 [[0x0B, 0x48], [0x69, 0x1C, 0x0D, 0x0B, 0x59], [0x6F, 0x1C, 0x0D]]
    (by decide)⟩

/-- C2: for every message whose processor chain completes without failure
(and which is not suppressed as a duplicate), the processing loop attempts
`send` on every configured destination in configured order — destination
errors do not stop the iteration — and afterwards the persisted status
updates are exactly `PROCESSING` then `SENT`, the metrics emitted are
`PROCESSING` then `SENT`, and the reply handle is resolved with `Ok`. -/
theorem pipeline_success_sends_all_destinations (content : String)
    (dedupRes : Option (Except String Bool)) (steps : List Pipeline.ProcStep)
    (dests : List (String × Except String Unit))
    (errDest : Option (String × Except String Unit))
    (hdedup : dedupRes ≠ some (Except.ok true))
    (hchain : (Pipeline.runChain content steps).failed = false) :
    Pipeline.processMessage content dedupRes steps dests errDest =
      { statusUpdates := [(Storage.MessageStatus.PROCESSING, none),
                          (Storage.MessageStatus.SENT, none)]
      , metrics := ["PROCESSING", "SENT"]
      , replies := [Except.ok "Processed"]
      , destAttempts := dests.map Prod.fst
      , dlqAttempts := [] } := by
  obtain ⟨hsu, hrep⟩ := Pipeline.runChain_ok_no_effects content steps hchain
  rcases dedupRes with _ | r
  · simp [Pipeline.processMessage, hchain, hsu, hrep]
  · rcases r with e | b
    · simp [Pipeline.processMessage, hchain, hsu, hrep]
    · cases b
      · simp [Pipeline.processMessage, hchain, hsu, hrep]
      · exact absurd rfl hdedup

/-- Witness for C2: a fresh (non-duplicate) message, a passing filter chain,
and two destinations of which the first fails — both are attempted and the
terminal effects are `SENT` / `Ok("Processed")`. -/
theorem pipeline_success_sends_all_destinations_witness :
    Pipeline.processMessage "hello" (some (Except.ok false))
      [Pipeline.ProcStep.filter (Except.ok (FilterProcessor.LuaValue.boolean true))]
      [("file", Except.error "disk full"), ("http", Except.ok ())] none =
      { statusUpdates := [(Storage.MessageStatus.PROCESSING, none),
                          (Storage.MessageStatus.SENT, none)]
      , metrics := ["PROCESSING", "SENT"]
      , replies := [Except.ok "Processed"]
      , destAttempts := ["file", "http"]
      , dlqAttempts := [] } :=
  pipeline_success_sends_all_destinations "hello" (some (Except.ok false))
    [Pipeline.ProcStep.filter (Except.ok (FilterProcessor.LuaValue.boolean true))]
    [("file", Except.error "disk full"), ("http", Except.ok ())] none
    (by simp) (by rfl)

/-- C3: the retry worker re-enqueues an `ERROR` row exactly when the current
time has reached `updated_at + 2^retry_count` minutes and the row's channel
has a registered sender; the re-enqueue increments `retry_count` by one,
sets the row to `PROCESSING`, and the enqueued message keeps the original
message id and carries origin `"retry_worker"`. -/
theorem retry_worker_decision (senders : List Nat) (now : Int)
    (r : RetryWorker.MessageRow) :
    ((RetryWorker.retryDecision senders now r).isSome ↔
      (r.updatedAt + 60 * ((2 ^ r.retryCount : Nat) : Int) ≤ now ∧
        r.channelId ∈ senders)) ∧
    ∀ a, RetryWorker.retryDecision senders now r = some a →
      a.newRetryCount = r.retryCount + 1 ∧
      a.newStatus = Storage.MessageStatus.PROCESSING ∧
      a.messageId = r.id ∧ a.channelId = r.channelId ∧
      a.content = r.content ∧ a.origin = "retry_worker" := by
  have hd : RetryWorker.retryDecision senders now r =
      if r.updatedAt + 60 * ((2 ^ r.retryCount : Nat) : Int) ≤ now then
        if r.channelId ∈ senders then
          some { messageId := r.id
               , channelId := r.channelId
               , content := r.content
               , origin := "retry_worker"
               , newRetryCount := r.retryCount + 1
               , newStatus := Storage.MessageStatus.PROCESSING }
        else none
      else none := rfl
  rw [hd]
  split_ifs with h1 h2
  · refine ⟨iff_of_true rfl ⟨h1, h2⟩, fun a ha => ?_⟩
    injection ha with ha
    subst ha
    simp
  · refine ⟨iff_of_false (by simp) (fun hc => h2 hc.2), fun a ha => ?_⟩
    simp at ha
  · refine ⟨iff_of_false (by simp) (fun hc => h1 hc.1), fun a ha => ?_⟩
    simp at ha

/-- Witness for C3: a row with `retry_count = 1` last updated at time 0 is
due at time 120 s (2 minutes), its channel `5` has a sender, and the
resulting action has `retry_count 2`, status `PROCESSING`, the original id
and origin `"retry_worker"`. -/
theorem retry_worker_decision_witness :
    (RetryWorker.retryDecision [5] 120 ⟨9, 5, "c", 1, 0⟩).isSome = true ∧
    ∀ a, RetryWorker.retryDecision [5] 120 ⟨9, 5, "c", 1, 0⟩ = some a →
      a.newRetryCount = 2 ∧ a.newStatus = Storage.MessageStatus.PROCESSING ∧
      a.messageId = 9 ∧ a.origin = "retry_worker" := by
  have h := retry_worker_decision [5] 120 ⟨9, 5, "c", 1, 0⟩
  refine ⟨h.1.mpr ⟨by decide, by decide⟩, fun a ha => ?_⟩
  have hp := h.2 a ha
  exact ⟨hp.1, hp.2.1, hp.2.2.1, hp.2.2.2.2.2⟩

/-- C4: evaluation at the failing input.  With one non-expired dedup entry
for channel 7 (hash 42, expiring at time 100), `start_channel` for channel 7
— the redeploy path included — leaves the `processed_ids` entries untouched
(`clear_channel` is never invoked), so the previously marked content is
still reported as a duplicate afterwards, contradicting the claim that the
store holds no entries for the channel after a (re)deploy. -/
theorem start_channel_keeps_dedup_entries :
    (Manager.startChannel ⟨[7], [7], [(7, 42, 100)]⟩ 7).dedup = [(7, 42, 100)] ∧
    Manager.isDuplicate (Manager.startChannel ⟨[7], [7], [(7, 42, 100)]⟩ 7).dedup
      7 42 0 = true ∧
    Manager.clearChannel
      (Manager.startChannel ⟨[7], [7], [(7, 42, 100)]⟩ 7).dedup 7 = [] := by
  decide

/-- C5 counterexample: when the message store's save fails for a complete
frame, the TCP source does not attempt an ACK — `persisted` stays false and
the ACK write is inside `if persisted` — contrary to the claim that an ACK
is still written. -/
theorem tcp_persist_failure_no_ack :
    (TcpSource.handleFrame "f-id" (some (Except.error "disk full")) true).ackAttempted
      = false := by
  rfl

/-- C5 amended: when a `MessageStore` is present and its save fails, the TCP
source logs one line at level `ERROR` whose message is prefixed `CRITICAL:`,
attempts no ACK, and does not enqueue the frame; when the save succeeds, or
no store is configured, the ACK is attempted and the frame is enqueued if
the ACK write succeeds. -/
theorem tcp_persist_failure_effects :
    (∀ freshId e ackOk,
      TcpSource.handleFrame freshId (some (Except.error e)) ackOk =
        { logs := [("ERROR", "CRITICAL: Failed to persist message: " ++ e)]
        , ackAttempted := false
        , enqueued := false
        , messageId := none }) ∧
    (∀ freshId id ackOk,
      (TcpSource.handleFrame freshId (some (Except.ok id)) ackOk).ackAttempted = true ∧
      (TcpSource.handleFrame freshId (some (Except.ok id)) ackOk).enqueued = ackOk) ∧
    (∀ freshId ackOk,
      (TcpSource.handleFrame freshId none ackOk).ackAttempted = true ∧
      (TcpSource.handleFrame freshId none ackOk).enqueued = ackOk) := by
  refine ⟨fun freshId e ackOk => rfl, fun freshId id ackOk => ⟨rfl, ?_⟩,
    fun freshId ackOk => ⟨rfl, ?_⟩⟩
  · simp [TcpSource.handleFrame]
  · simp [TcpSource.handleFrame]

/-- C6 counterexample: a condition evaluating to Lua `nil` does not pass —
`FilterProcessor::process` returns `Ok(false)` (message filtered), not the
claimed `Ok(true)`. -/
theorem filter_nil_is_filtered :
    FilterProcessor.process (Except.ok FilterProcessor.LuaValue.nil) =
      Except.ok false := by
  rfl

/-- C6 amended: `FilterProcessor::process` returns `Ok(true)` when the
condition evaluates to boolean true, `Ok(false)` when it evaluates to
boolean false or to `nil`, `Ok(true)` (with a warning logged) for every
other non-boolean value, and `Err` when evaluation raises. -/
theorem filter_process_cases :
    (∀ b, FilterProcessor.process (Except.ok (FilterProcessor.LuaValue.boolean b)) =
      Except.ok b) ∧
    FilterProcessor.process (Except.ok FilterProcessor.LuaValue.nil) =
      Except.ok false ∧
    (∀ n, FilterProcessor.process (Except.ok (FilterProcessor.LuaValue.number n)) =
      Except.ok true) ∧
    (∀ s, FilterProcessor.process (Except.ok (FilterProcessor.LuaValue.str s)) =
      Except.ok true) ∧
    FilterProcessor.process (Except.ok FilterProcessor.LuaValue.table) =
      Except.ok true ∧
    FilterProcessor.process (Except.ok FilterProcessor.LuaValue.func) =
      Except.ok true ∧
    (∀ e, FilterProcessor.process (Except.error e) = Except.error e) := by
  exact ⟨fun b => rfl, rfl, fun n => rfl, fun s => rfl, rfl, rfl, fun e => rfl⟩

/-- C7: for every input, `generate_ack` returns a frame that starts with SB
(0x0B) and ends with EB CR (0x1C 0x0D).  When the input's first CR-separated
segment has at least 10 |-separated fields, the output is the full ACK of
the claim (`ackSpecFull`): MSH with sending app/facility = input MSH-5/
MSH-6, receiving app/facility = input MSH-3/MSH-4, the timestamp, type
`ACK`, the fresh control id, and `MSA|AA|<input MSH-10>`; with fewer than 10
fields it is the minimal frame `\x0B MSA|AA|Unknown|<timestamp> \x1C\x0D`
(`ackSpecMinimal`). -/
theorem generate_ack_shape (now fresh input : List Char) :
    (∃ mid, Mllp.generateAck now fresh input = '\x0B' :: (mid ++ ['\x1C', '\x0D'])) ∧
    ((Chars.splitOnChar '|' ((Chars.splitOnChar '\r' input).headD [])).length < 10 →
      Mllp.generateAck now fresh input = Mllp.ackSpecMinimal now) ∧
    (10 ≤ (Chars.splitOnChar '|' ((Chars.splitOnChar '\r' input).headD [])).length →
      Mllp.generateAck now fresh input =
        Mllp.ackSpecFull now fresh
          (Chars.splitOnChar '|' ((Chars.splitOnChar '\r' input).headD []))) := by
  rcases h : Chars.splitOnChar '\r' input with _ | ⟨s0, rest⟩
  · exact absurd h (Chars.splitOnChar_ne_nil '\r' input)
  · by_cases hl : (Chars.splitOnChar '|' s0).length < 10
    · refine ⟨⟨"MSA|AA|Unknown|".toList ++ now, ?_⟩, fun _ => ?_, fun hge => ?_⟩
      · simp [Mllp.generateAck, h, hl, List.append_assoc]
      · simp [Mllp.generateAck, h, hl, Mllp.ackSpecMinimal]
      · simp at hge
        omega
    · refine ⟨?_, fun hlt => ?_, fun _ => ?_⟩
      · refine ⟨("MSH|^~\\&|".toList ++ ((Chars.splitOnChar '|' s0).get? 4).getD []
          ++ '|' :: ((Chars.splitOnChar '|' s0).get? 5).getD []
          ++ '|' :: ((Chars.splitOnChar '|' s0).get? 2).getD []
          ++ '|' :: ((Chars.splitOnChar '|' s0).get? 3).getD []
          ++ '|' :: now ++ "||ACK|".toList ++ fresh ++ "|P|2.3".toList)
          ++ '\r' :: ("MSA|AA|".toList ++ ((Chars.splitOnChar '|' s0).get? 9).getD []), ?_⟩
        simp [Mllp.generateAck, h, hl, List.append_assoc]
      · simp at hlt
        omega
      · simp [Mllp.generateAck, h, hl, Mllp.ackSpecFull, List.append_assoc]

/-- Witness for C7: a standard MSH segment with 12 fields takes the full
branch, and a short non-HL7 input takes the minimal branch. -/
theorem generate_ack_shape_witness :
    Mllp.generateAck "20240101000000".toList "cid-1".toList
        "MSH|^~\\&|HIS|Hosp|Mirth|Sys|TS||ADT|MSG1|P|2.3\rPID|1".toList =
      Mllp.ackSpecFull "20240101000000".toList "cid-1".toList
        (Chars.splitOnChar '|'
          ((Chars.splitOnChar '\r'
            "MSH|^~\\&|HIS|Hosp|Mirth|Sys|TS||ADT|MSG1|P|2.3\rPID|1".toList).headD [])) ∧
    Mllp.generateAck "20240101000000".toList "cid-1".toList "hello".toList =
      Mllp.ackSpecMinimal "20240101000000".toList := by
  constructor
  · exact (generate_ack_shape "20240101000000".toList "cid-1".toList
      "MSH|^~\\&|HIS|Hosp|Mirth|Sys|TS||ADT|MSG1|P|2.3\rPID|1".toList).2.2 (by decide)
  · exact (generate_ack_shape "20240101000000".toList "cid-1".toList
      "hello".toList).2.1 (by decide)

/-- C8 counterexample: `build_filename` performs token substitution only and
does not sanitize — a configured pattern containing a path separator is
returned verbatim, so its result can contain `/`, contrary to the claim
that no `build_filename` result ever does. -/
theorem build_filename_keeps_separator :
    '/' ∈ FileWriter.build_filename (some "a/b".toList) [] [] [] [] := by
  decide

/-- C8 amended: sanitization lives in `sanitize_filename` (applied by
`validate_path`, through which every file-destination write goes), not in
`build_filename`: no `sanitize_filename` result contains `/`, `\`, NUL or a
control character and it is capped at 255 characters; every path that
`validate_path` returns contains no `..` substring (hence no `..`
component); and `validate_path` rejects when the base directory plus the raw
filename exceed 4096 characters. -/
theorem file_sanitization_properties (f cwd base fn p : List Char) :
    (∀ c ∈ FileWriter.sanitize_filename f,
        c ≠ '/' ∧ c ≠ '\\' ∧ c ≠ '\x00' ∧ Chars.isControlChar c = false) ∧
    (FileWriter.sanitize_filename f).length ≤ 255 ∧
    (FileWriter.validate_path cwd base fn = Except.ok p →
        Chars.containsSub p "..".toList = false) ∧
    (4096 < base.length + fn.length →
        ∃ e, FileWriter.validate_path cwd base fn = Except.error e) := by
  refine ⟨?_, ?_, ?_, ?_⟩
  · intro c hc
    have hc2 := List.take_subset _ _ hc
    simp only [List.mem_filter] at hc2
    obtain ⟨⟨_, h1⟩, h2⟩ := hc2
    simp only [Bool.not_eq_true', Bool.or_eq_false_iff, decide_eq_false_iff_not] at h1
    simp only [Bool.not_eq_true'] at h2
    exact ⟨h1.1.1, h1.1.2, h1.2, h2⟩
  · unfold FileWriter.sanitize_filename FileWriter.MAX_FILENAME_LENGTH
    exact List.length_take_le _ _
  · intro hok
    unfold FileWriter.validate_path at hok
    simp only [] at hok
    split_ifs at hok <;> cases hok <;> simp_all
  · intro hlen
    refine ⟨"Path exceeds maximum length", ?_⟩
    have h : FileWriter.MAX_PATH_LENGTH < base.length + fn.length := hlen
    unfold FileWriter.validate_path
    rw [if_pos h]

/-- Witness for C8 at concrete inputs: `validate_path` accepts
`/tmp` + `a.txt` producing `/tmp/a.txt` (no `..`), and rejects a 5000-char
base directory. -/
theorem file_sanitization_properties_witness :
    FileWriter.validate_path [] "/tmp".toList "a.txt".toList =
      Except.ok "/tmp/a.txt".toList ∧
    Chars.containsSub "/tmp/a.txt".toList "..".toList = false ∧
    (∃ e, FileWriter.validate_path [] (List.replicate 5000 'a') [] =
      Except.error e) := by
  refine ⟨by rfl, ?_, ?_⟩
  · exact (file_sanitization_properties [] [] "/tmp".toList "a.txt".toList
      "/tmp/a.txt".toList).2.2.1 (by rfl)
  · exact (file_sanitization_properties [] [] (List.replicate 5000 'a') []
      []).2.2.2 (by simp only [List.length_replicate, List.length_nil]; omega)

/-- C9 counterexample: a persisted status `"FILTERED"` does read back as
`MessageStatus::ERROR` through the `From<String>` conversion, but it is not
selected by the retry worker's scan, which compares the stored string
literally against `'ERROR'` — so reading back as ERROR does not make the
row eligible for the ERROR-row retry scan. -/
theorem filtered_reads_error_but_not_scanned :
    Storage.statusFromString "FILTERED" = Storage.MessageStatus.ERROR ∧
    Storage.retryScanSelects "FILTERED" = false := by
  decide

/-- C9 amended: the string-to-`MessageStatus` conversion is total, fixes the
four exact names, and maps every other string — `"FILTERED"` included — to
`MessageStatus::ERROR`; however such rows are only eligible for the retry
scan when the stored string is literally `"ERROR"`, since the scan filters
`WHERE status = 'ERROR'` on the raw column. -/
theorem status_from_string_total (s : String) :
    Storage.statusFromString "PENDING" = Storage.MessageStatus.PENDING ∧
    Storage.statusFromString "PROCESSING" = Storage.MessageStatus.PROCESSING ∧
    Storage.statusFromString "SENT" = Storage.MessageStatus.SENT ∧
    Storage.statusFromString "ERROR" = Storage.MessageStatus.ERROR ∧
    (s ≠ "PENDING" → s ≠ "PROCESSING" → s ≠ "SENT" → s ≠ "ERROR" →
      Storage.statusFromString s = Storage.MessageStatus.ERROR) ∧
    (Storage.retryScanSelects s = true ↔ s = "ERROR") := by
  refine ⟨rfl, rfl, rfl, rfl, fun h1 h2 h3 h4 => ?_,
    by simp [Storage.retryScanSelects]⟩
  simp [Storage.statusFromString, h1, h2, h3, h4]

/-- Witness for C9: the unknown name `"GARBAGE"` converts to `ERROR` and is
not selected by the retry scan. -/
theorem status_from_string_total_witness :
    Storage.statusFromString "GARBAGE" = Storage.MessageStatus.ERROR ∧
    (Storage.retryScanSelects "GARBAGE" = true ↔ "GARBAGE" = "ERROR") := by
  have h := status_from_string_total "GARBAGE"
  exact ⟨h.2.2.2.2.1 (by decide) (by decide) (by decide) (by decide), h.2.2.2.2.2⟩

/-- C10: `HttpSender::send` returns `Ok(())` whenever the HTTP exchange
completes, whatever the response status (4xx/5xx included — they are only
logged); it returns `Err` exactly when the per-request URL validation fails
(with that validation error) or the transport itself errors. -/
theorem http_send_status_independent (parsed : Option HttpSender.Url)
    (resolved : Option (List HttpSender.IpAddr)) :
    (∀ u, HttpSender.validate_url parsed resolved = Except.ok u →
      (∀ status, HttpSender.send parsed resolved (some status) = Except.ok ()) ∧
      HttpSender.send parsed resolved none = Except.error "transport error") ∧
    (∀ e, HttpSender.validate_url parsed resolved = Except.error e →
      ∀ transport, HttpSender.send parsed resolved transport = Except.error e) := by
  constructor
  · intro u hu
    constructor
    · intro status
      unfold HttpSender.send
      rw [hu]
    · unfold HttpSender.send
      rw [hu]
  · intro e he transport
    unfold HttpSender.send
    rw [he]

/-- Witness for C10: a validated public URL whose request completes with
HTTP 500 still yields `Ok(())`. -/
theorem http_send_status_independent_witness :
    HttpSender.validate_url (some ⟨"http", some "example.com"⟩)
        (some [HttpSender.IpAddr.v4 93 184 216 34]) =
      Except.ok ⟨"http", some "example.com"⟩ ∧
    HttpSender.send (some ⟨"http", some "example.com"⟩)
        (some [HttpSender.IpAddr.v4 93 184 216 34]) (some 500) = Except.ok () := by
  refine ⟨by rfl, ?_⟩
  exact ((http_send_status_independent (some ⟨"http", some "example.com"⟩)
    (some [HttpSender.IpAddr.v4 93 184 216 34])).1
      ⟨"http", some "example.com"⟩ (by rfl)).1 500
